import Mathlib

/-!
Shallow embedding of the trajectory tool's numerical core:
the derivation engine and metrics engine of `src/utils/trajectory.ts`,
the reactive synchronization controller of `src/state/traj.ts`, and
the import helpers (`validateImportData`, `padOrTruncate`, the flow).

Conventions of the embedding:
* JavaScript numbers are modelled as real numbers (`ℝ`); the claims are
  stated in exact real arithmetic.
* A JavaScript array of numbers is a `List ℝ`; an indexed read `a[i]`
  is modelled by `a.getD i 0`.  An out-of-range read yields `undefined`
  (hence `NaN` downstream) in JavaScript and `0` here; every claim below
  only exercises in-range reads on the paths it talks about.
* `Math.atan2 y x` is the argument of the complex number `x + y·i`,
  `Math.sqrt` is `Real.sqrt`, `Math.tan` is `Real.tan`, `Math.PI` is π.
* The `while`-loop angle normalization of the source is the pair
  `wrapDown` / `wrapUp` below (repeatedly subtract 2π while the value
  exceeds π, then repeatedly add 2π while it is below −π).
* The imperative per-index loops of the source, in which an output array
  may read its own earlier entries (`oz[i-1]`), become structural
  recursions (`ozSeq`, `integ`, `thetaSeq`) producing the value at each
  index; the output array is `(List.range length).map f`.
-/

/-- The `CONFIG` constant of `src/type/trajectory.ts`
(`timeSteps: 33`, `dt: 0.1`; the color field is presentation-only). -/
structure Config where
  timeSteps : ℕ
  dt : ℝ

noncomputable def CONFIG : Config where
  timeSteps := 33
  dt := 0.1

/-- The `InputData` record of `src/type/trajectory.ts`: the six motion
signal buffers. -/
structure InputData where
  px : List ℝ
  py : List ℝ
  oz : List ℝ
  vx : List ℝ
  vy : List ℝ
  wz : List ℝ

/-- The `OutputData` record of `src/type/trajectory.ts`: the four derived
metric buffers. -/
structure OutputData where
  ax : List ℝ
  ay : List ℝ
  cz : List ℝ
  l1 : List ℝ

/-- `Math.atan2 y x`: the argument of the complex number with real part
`x` and imaginary part `y` (range `(-π, π]`, `atan2 0 0 = 0`). -/
noncomputable def atan2 (y x : ℝ) : ℝ := Complex.arg ⟨x, y⟩

/-- The loop `while (v > Math.PI) v -= 2 * Math.PI` of the source. -/
noncomputable def wrapDown (x : ℝ) : ℝ :=
  if Real.pi < x then wrapDown (x - 2 * Real.pi) else x
termination_by (⌈(x - Real.pi) / (2 * Real.pi)⌉).toNat
decreasing_by
  have h2 : (x - 2 * Real.pi - Real.pi) / (2 * Real.pi)
      = (x - Real.pi) / (2 * Real.pi) - 1 := by
    field_simp
    ring
  have hpos : 0 < ⌈(x - Real.pi) / (2 * Real.pi)⌉ :=
    Int.ceil_pos.mpr (div_pos (by linarith) (by positivity))
  rw [h2, Int.ceil_sub_one]
  omega

/-- The loop `while (v < -Math.PI) v += 2 * Math.PI` of the source. -/
noncomputable def wrapUp (x : ℝ) : ℝ :=
  if x < -Real.pi then wrapUp (x + 2 * Real.pi) else x
termination_by (⌈(-Real.pi - x) / (2 * Real.pi)⌉).toNat
decreasing_by
  have h2 : (-Real.pi - (x + 2 * Real.pi)) / (2 * Real.pi)
      = (-Real.pi - x) / (2 * Real.pi) - 1 := by
    field_simp
    ring
  have hpos : 0 < ⌈(-Real.pi - x) / (2 * Real.pi)⌉ :=
    Int.ceil_pos.mpr (div_pos (by linarith) (by positivity))
  rw [h2, Int.ceil_sub_one]
  omega

/-- The two normalization loops of the source run in sequence: first
subtract 2π while above π, then add 2π while below −π. -/
noncomputable def normalizeAngle (x : ℝ) : ℝ := wrapUp (wrapDown x)

/-- The finite-difference estimate used for `vx`/`vy` in
`calculateFromPxPy` and for `vx` in `calculateFromPxOz`: forward
difference `(a[i+1]-a[i])/dt` while `i < length - 1` (where `length` is
the loop bound, `data.px.length` in both callers), backward difference
`(a[i]-a[i-1])/dt` at the last index. -/
noncomputable def diffQuot (length : ℕ) (a : List ℝ) (i : ℕ) : ℝ :=
  if i < length - 1 then (a.getD (i + 1) 0 - a.getD i 0) / CONFIG.dt
  else (a.getD i 0 - a.getD (i - 1) 0) / CONFIG.dt

/-- The orientation recurrence shared by `calculateFromPxPy` and
`calculateFromVxVy`: at each index, `atan2 vy vx` when the speed
`sqrt (vx*vx + vy*vy)` exceeds `0.01`, otherwise the previous entry
(the array's initial fill `0` at index 0). -/
noncomputable def ozSeq (v w : ℕ → ℝ) : ℕ → ℝ
  | 0 => if Real.sqrt (v 0 * v 0 + w 0 * w 0) > 0.01 then atan2 (w 0) (v 0)
         else 0
  | i + 1 =>
      if Real.sqrt (v (i + 1) * v (i + 1) + w (i + 1) * w (i + 1)) > 0.01
      then atan2 (w (i + 1)) (v (i + 1))
      else ozSeq v w i

/-- The yaw-rate computation shared by the modes that derive `wz`:
`0` at index 0, otherwise the normalized difference of consecutive
orientations divided by `dt`. -/
noncomputable def wzSeq (oz : ℕ → ℝ) (i : ℕ) : ℝ :=
  if i = 0 then 0 else normalizeAngle (oz i - oz (i - 1)) / CONFIG.dt

/-- Forward Euler integration as in the source loops: record the
accumulator, then add `v[i]*dt` (so the value at index `i` is the seed
plus the first `i` increments). -/
noncomputable def integ (x0 : ℝ) (v : ℕ → ℝ) : ℕ → ℝ
  | 0 => x0
  | i + 1 => integ x0 v i + v i * CONFIG.dt

/-- The orientation accumulator of `calculateFromVxWz`: the seed is the
prior `oz[0]` (not normalized before the first store); after each step
`theta += wz[i]*dt` the value is normalized. -/
noncomputable def thetaSeq (theta0 : ℝ) (w : ℕ → ℝ) : ℕ → ℝ
  | 0 => theta0
  | i + 1 => normalizeAngle (thetaSeq theta0 w i + w i * CONFIG.dt)

/-- `calculateFromPxPy` (`src/utils/trajectory.ts`, position mode):
differentiate `px, py` to get `vx, vy`, orientation from the velocity
direction, yaw rate from the wrapped orientation difference.  The
driving `px, py` pass through via the record spread. -/
noncomputable def calculateFromPxPy (data : InputData) : InputData :=
  let length := data.px.length
  let vx := fun i => diffQuot length data.px i
  let vy := fun i => diffQuot length data.py i
  let oz := ozSeq vx vy
  { data with
    vx := (List.range length).map vx
    vy := (List.range length).map vy
    oz := (List.range length).map oz
    wz := (List.range length).map (wzSeq oz) }

/-- `calculateFromVxVy` (`src/utils/trajectory.ts`, velocity mode):
integrate `vx, vy` to positions (seeded from the prior `px[0]`, `py[0]`
via `data.px?.[0] || 0`, i.e. `0` when absent), orientation and yaw rate
as in position mode.  The driving `vx, vy` pass through. -/
noncomputable def calculateFromVxVy (data : InputData) : InputData :=
  let length := data.vx.length
  let vx := fun i => data.vx.getD i 0
  let vy := fun i => data.vy.getD i 0
  let oz := ozSeq vx vy
  { data with
    px := (List.range length).map (integ (data.px.getD 0 0) vx)
    py := (List.range length).map (integ (data.py.getD 0 0) vy)
    oz := (List.range length).map oz
    wz := (List.range length).map (wzSeq oz) }

/-- `calculateFromVxWz` (`src/utils/trajectory.ts`, integral mode):
no-slip integration.  At each index the current accumulators are stored
(`px[i]=x, py[i]=y, oz[i]=theta`), `vy[i] = vx[i]*tan(theta)`, then
`x,y` advance by the velocities and `theta` by `wz[i]*dt` followed by
normalization.  Seeds come from the prior `px[0], py[0], oz[0]` (`0`
when absent).  The driving `vx, wz` pass through. -/
noncomputable def calculateFromVxWz (data : InputData) : InputData :=
  let length := data.vx.length
  let vx := fun i => data.vx.getD i 0
  let w := fun i => data.wz.getD i 0
  let theta := thetaSeq (data.oz.getD 0 0) w
  let vy := fun i => vx i * Real.tan (theta i)
  { data with
    px := (List.range length).map (integ (data.px.getD 0 0) vx)
    py := (List.range length).map (integ (data.py.getD 0 0) vy)
    oz := (List.range length).map theta
    vy := (List.range length).map vy }

/-- `calculateFromPxOz` (`src/utils/trajectory.ts`, differential mode):
`vx` by finite difference of `px`, `vy = vx*tan(oz)`, `wz` from the
wrapped difference of the given `oz`, and `py` integrated from `vy`
(seeded from the prior `py[0]`, `0` when absent).  The driving `px, oz`
pass through. -/
noncomputable def calculateFromPxOz (data : InputData) : InputData :=
  let length := data.px.length
  let ozIn := fun i => data.oz.getD i 0
  let vx := fun i => diffQuot length data.px i
  let vy := fun i => vx i * Real.tan (ozIn i)
  { data with
    py := (List.range length).map (integ (data.py.getD 0 0) vy)
    vx := (List.range length).map vx
    vy := (List.range length).map vy
    wz := (List.range length).map (wzSeq ozIn) }

/-- The `Methods` union type of `src/type/trajectory.ts`. -/
inductive Methods where
  | position
  | velocity
  | integral
  | differential
deriving DecidableEq

/-- `getCompleteTrajectoryData` (`src/utils/trajectory.ts`): dispatch on
the calculation mode. -/
noncomputable def getCompleteTrajectoryData (data : InputData)
    (mode : Methods) : InputData :=
  match mode with
  | .position => calculateFromPxPy data
  | .velocity => calculateFromVxVy data
  | .integral => calculateFromVxWz data
  | .differential => calculateFromPxOz data

/-- `calculateOutputData` (`src/utils/trajectory.ts`): acceleration by
backward difference of the velocities (`0` at index 0), curvature
`wz/speed` when the speed exceeds `0.1` (else `0`), and the Euclidean
tracking error against the ground truth when one is supplied and has an
index-`i` sample (else `0`).  The JavaScript guard returning zero-filled
arrays when one of the six fields is `undefined` is unreachable for the
typed `InputData` record (a present empty array is truthy) and is not
modelled. -/
noncomputable def calculateOutputData (data : InputData)
    (gtData : Option InputData) : OutputData :=
  let length := data.px.length
  let ax := fun i =>
    if i = 0 then 0
    else (data.vx.getD i 0 - data.vx.getD (i - 1) 0) / CONFIG.dt
  let ay := fun i =>
    if i = 0 then 0
    else (data.vy.getD i 0 - data.vy.getD (i - 1) 0) / CONFIG.dt
  let cz := fun i =>
    let v := Real.sqrt (data.vx.getD i 0 * data.vx.getD i 0 +
      data.vy.getD i 0 * data.vy.getD i 0)
    if v > 0.1 then data.wz.getD i 0 / v else 0
  let l1 := fun i =>
    match gtData with
    | some gt =>
        if i < gt.px.length then
          Real.sqrt ((data.px.getD i 0 - gt.px.getD i 0) *
              (data.px.getD i 0 - gt.px.getD i 0) +
            (data.py.getD i 0 - gt.py.getD i 0) *
              (data.py.getD i 0 - gt.py.getD i 0))
        else 0
    | none => 0
  { ax := (List.range length).map ax
    ay := (List.range length).map ay
    cz := (List.range length).map cz
    l1 := (List.range length).map l1 }

/-- Names of the six input signals (the dynamic string keys of
`InputData` in the source). -/
inductive InputKey where
  | px
  | py
  | oz
  | vx
  | vy
  | wz
deriving DecidableEq

/-- Names of the four output signals. -/
inductive OutputKey where
  | ax
  | ay
  | cz
  | l1
deriving DecidableEq

/-- The `DataKey` union of `src/state/traj.ts`. -/
inductive DataKey where
  | input : InputKey → DataKey
  | output : OutputKey → DataKey

def getSig (d : InputData) : InputKey → List ℝ
  | .px => d.px
  | .py => d.py
  | .oz => d.oz
  | .vx => d.vx
  | .vy => d.vy
  | .wz => d.wz

def setSig (d : InputData) (k : InputKey) (a : List ℝ) : InputData :=
  match k with
  | .px => { d with px := a }
  | .py => { d with py := a }
  | .oz => { d with oz := a }
  | .vx => { d with vx := a }
  | .vy => { d with vy := a }
  | .wz => { d with wz := a }

def getOut (o : OutputData) : OutputKey → List ℝ
  | .ax => o.ax
  | .ay => o.ay
  | .cz => o.cz
  | .l1 => o.l1

def setOut (o : OutputData) (k : OutputKey) (a : List ℝ) : OutputData :=
  match k with
  | .ax => { o with ax := a }
  | .ay => { o with ay := a }
  | .cz => { o with cz := a }
  | .l1 => { o with l1 := a }

/-- The `inputs` column of the `METHODS` table in
`src/type/trajectory.ts`: the two driving signals of each mode. -/
def METHODS_inputs : Methods → List InputKey
  | .position => [.px, .py]
  | .velocity => [.vx, .vy]
  | .integral => [.vx, .wz]
  | .differential => [.px, .oz]

/-- The mutable store of `src/state/traj.ts`: the six input atoms, the
four output atoms, the ground-truth atoms and the mode atom. -/
structure TrajState where
  input : InputData
  output : OutputData
  gt : InputData
  mode : Methods

/-- `hasGroundTruthAtom`: ground truth counts as set when its `px`
buffer is nonempty. -/
def hasGroundTruth (s : TrajState) : Bool := 0 < s.gt.px.length

/-- The write-back loop of `syncOutputDataAtom`: each input signal that
the active mode does not own is replaced by the derived value; owned
signals keep the buffer contents. -/
def syncInput (active : List InputKey) (inp comp : InputData) :
    InputData where
  px := if InputKey.px ∈ active then inp.px else comp.px
  py := if InputKey.py ∈ active then inp.py else comp.py
  oz := if InputKey.oz ∈ active then inp.oz else comp.oz
  vx := if InputKey.vx ∈ active then inp.vx else comp.vx
  vy := if InputKey.vy ∈ active then inp.vy else comp.vy
  wz := if InputKey.wz ∈ active then inp.wz else comp.wz

/-- `syncOutputDataAtom` (`src/state/traj.ts`): recompute the complete
state for the current mode, recompute the metrics (passing the ground
truth only when it is set), write the four output buffers, and write
back every non-active input signal. -/
noncomputable def syncOutputData (s : TrajState) : TrajState :=
  let completeData := getCompleteTrajectoryData s.input s.mode
  let outputData := calculateOutputData completeData
    (if hasGroundTruth s then some s.gt else none)
  { s with
    output := outputData
    input := syncInput (METHODS_inputs s.mode) s.input completeData }

/-- The update loop of `batchUpdateTimeSeriesAtom`: copy the buffer and
set each listed index to its new value. -/
def applyUpdates (current : List ℝ) (updates : List (ℕ × ℝ)) : List ℝ :=
  updates.foldl (fun acc u => acc.set u.1 u.2) current

/-- `batchUpdateTimeSeriesAtom` (`src/state/traj.ts`): an output key is
written directly with no further effect; an input key is written and
then `syncOutputDataAtom` runs. -/
noncomputable def batchUpdateTimeSeries (s : TrajState) (key : DataKey)
    (updates : List (ℕ × ℝ)) : TrajState :=
  match key with
  | .output k =>
      { s with
        output := setOut s.output k (applyUpdates (getOut s.output k) updates) }
  | .input k =>
      syncOutputData
        { s with
          input := setSig s.input k (applyUpdates (getSig s.input k) updates) }

/-- An import document: any subset of the six arrays may be present
(a field of the parsed JSON object that is an array). -/
structure ImportDoc where
  px : Option (List ℝ)
  py : Option (List ℝ)
  oz : Option (List ℝ)
  vx : Option (List ℝ)
  vy : Option (List ℝ)
  wz : Option (List ℝ)

/-- `validateImportData` (`src/logic/initialize.ts`): accept when at
least one of the six recognized keys is present as an array. -/
def validateImportData (doc : ImportDoc) : Bool :=
  doc.px.isSome || doc.py.isSome || doc.oz.isSome ||
    doc.vx.isSome || doc.vy.isSome || doc.wz.isSome

/-- `padOrTruncate` (`src/logic/initialize.ts`). -/
def padOrTruncate (arr : List ℝ) (targetLength : ℕ) : List ℝ :=
  if arr.length = targetLength then arr
  else if arr.length > targetLength then arr.take targetLength
  else arr ++ List.replicate (targetLength - arr.length) 0

/-- The `processedData` loop of `useImport`: normalize every present
array to `CONFIG.timeSteps`. -/
noncomputable def processDoc (doc : ImportDoc) : ImportDoc where
  px := doc.px.map (padOrTruncate · CONFIG.timeSteps)
  py := doc.py.map (padOrTruncate · CONFIG.timeSteps)
  oz := doc.oz.map (padOrTruncate · CONFIG.timeSteps)
  vx := doc.vx.map (padOrTruncate · CONFIG.timeSteps)
  vy := doc.vy.map (padOrTruncate · CONFIG.timeSteps)
  wz := doc.wz.map (padOrTruncate · CONFIG.timeSteps)

/-- The write loop of `importTrajectoryAtom`: every present array
replaces the corresponding input buffer, absent fields keep the current
buffer. -/
def writeDoc (inp : InputData) (doc : ImportDoc) : InputData where
  px := doc.px.getD inp.px
  py := doc.py.getD inp.py
  oz := doc.oz.getD inp.oz
  vx := doc.vx.getD inp.vx
  vy := doc.vy.getD inp.vy
  wz := doc.wz.getD inp.wz

/-- `importTrajectoryAtom` (`src/state/traj.ts`): write the present
arrays, then run `syncOutputDataAtom`. -/
noncomputable def importTrajectory (s : TrajState) (doc : ImportDoc) :
    TrajState :=
  syncOutputData { s with input := writeDoc s.input doc }

/-- The import flow of `useImport` (`src/logic/initialize.ts`): a
document failing validation is rejected with no state change; otherwise
the normalized document is imported. -/
noncomputable def importFlow (s : TrajState) (doc : ImportDoc) :
    TrajState :=
  if validateImportData doc then importTrajectory s (processDoc doc)
  else s

/-! ## Theorems -/

theorem getD_map_range {f : ℕ → ℝ} {n i : ℕ} (h : i < n) :
    ((List.range n).map f).getD i 0 = f i := by
  rw [List.getD_eq_getElem?_getD, List.getElem?_map, List.getElem?_range h]
  rfl

theorem length_map_range (f : ℕ → ℝ) (n : ℕ) :
    ((List.range n).map f).length = n := by
  simp

theorem getD_replicate0 {n i : ℕ} :
    (List.replicate n (0 : ℝ)).getD i 0 = 0 := by
  rw [List.getD_eq_getElem?_getD, List.getElem?_replicate]
  split <;> rfl

theorem getD_default {l : List ℝ} {i : ℕ} (h : l.length ≤ i) :
    l.getD i 0 = 0 := by
  rw [List.getD_eq_getElem?_getD, List.getElem?_eq_none h]
  rfl

theorem CONFIG_dt_ne_zero : CONFIG.dt ≠ 0 := by
  norm_num [CONFIG]

theorem integ_eq_sum (x0 : ℝ) (v : ℕ → ℝ) (k : ℕ) :
    integ x0 v k = x0 + CONFIG.dt * ∑ j ∈ Finset.range k, v j := by
  induction k with
  | zero => simp [integ]
  | succ n ih =>
    rw [show integ x0 v (n + 1) = integ x0 v n + v n * CONFIG.dt from rfl,
      ih, Finset.sum_range_succ]
    ring

theorem ozSeq_mem_Ioc (v w : ℕ → ℝ) (i : ℕ) :
    ozSeq v w i ∈ Set.Ioc (-Real.pi) Real.pi := by
  have hpi := Real.pi_pos
  induction i with
  | zero =>
    rw [ozSeq]
    split
    · exact Complex.arg_mem_Ioc _
    · exact ⟨by linarith, by linarith⟩
  | succ n ih =>
    rw [ozSeq]
    split
    · exact Complex.arg_mem_Ioc _
    · exact ih

theorem wrapDown_eq_self {x : ℝ} (h : x ≤ Real.pi) : wrapDown x = x := by
  rw [wrapDown, if_neg (not_lt.mpr h)]

theorem wrapUp_eq_self {x : ℝ} (h : -Real.pi ≤ x) : wrapUp x = x := by
  rw [wrapUp, if_neg (not_lt.mpr h)]

theorem wrapDown_le (x : ℝ) : wrapDown x ≤ Real.pi := by
  induction x using wrapDown.induct with
  | case1 x h ih =>
    rw [wrapDown, if_pos h]
    exact ih
  | case2 x h =>
    rw [wrapDown, if_neg h]
    exact not_lt.mp h

theorem wrapUp_mem {x : ℝ} (hx : x ≤ Real.pi) :
    wrapUp x ∈ Set.Icc (-Real.pi) Real.pi := by
  induction x using wrapUp.induct with
  | case1 x h ih =>
    rw [wrapUp, if_pos h]
    have hpi := Real.pi_pos
    exact ih (by linarith)
  | case2 x h =>
    rw [wrapUp, if_neg h]
    exact ⟨not_lt.mp h, hx⟩

theorem normalizeAngle_mem (x : ℝ) :
    normalizeAngle x ∈ Set.Icc (-Real.pi) Real.pi :=
  wrapUp_mem (wrapDown_le x)

theorem normalizeAngle_eq_self {x : ℝ} (h1 : -Real.pi ≤ x)
    (h2 : x ≤ Real.pi) : normalizeAngle x = x := by
  rw [normalizeAngle, wrapDown_eq_self h2, wrapUp_eq_self h1]

/-- C3: in velocity mode the output positions are the forward-Euler
integrals of the driving velocities: `px[i] = x0 + dt * (vx[0] + ... +
vx[i-1])` and `py[i] = y0 + dt * (vy[0] + ... + vy[i-1])` for every
index `i` of the output (so `px[0] = x0`), where the seeds `x0, y0` are
the prior `px[0], py[0]` when present and `0` otherwise (`List.getD 0 0`
is the prior first entry and is `0` for an empty buffer). -/
theorem velocity_mode_integrates_position (d : InputData) (i : ℕ)
    (hi : i < d.vx.length) :
    (getCompleteTrajectoryData d Methods.velocity).px.getD i 0
        = d.px.getD 0 0 + CONFIG.dt * ∑ j ∈ Finset.range i, d.vx.getD j 0
    ∧ (getCompleteTrajectoryData d Methods.velocity).py.getD i 0
        = d.py.getD 0 0 + CONFIG.dt * ∑ j ∈ Finset.range i, d.vy.getD j 0 := by
  constructor
  · show (calculateFromVxVy d).px.getD i 0 = _
    simp only [calculateFromVxVy]
    rw [getD_map_range hi, integ_eq_sum]
  · show (calculateFromVxVy d).py.getD i 0 = _
    simp only [calculateFromVxVy]
    rw [getD_map_range hi, integ_eq_sum]

/-- Witness for `velocity_mode_integrates_position` at the concrete
input `vx = [1, 1], vy = [0, 0]` with empty seed buffers, index 1. -/
theorem velocity_mode_integrates_position_witness :
    (1 < (InputData.mk [] [] [] [1, 1] [0, 0] []).vx.length)
    ∧ ((getCompleteTrajectoryData (InputData.mk [] [] [] [1, 1] [0, 0] [])
          Methods.velocity).px.getD 1 0
        = (InputData.mk [] [] [] [1, 1] [0, 0] []).px.getD 0 0
          + CONFIG.dt * ∑ j ∈ Finset.range 1,
              (InputData.mk [] [] [] [1, 1] [0, 0] []).vx.getD j 0
      ∧ (getCompleteTrajectoryData (InputData.mk [] [] [] [1, 1] [0, 0] [])
          Methods.velocity).py.getD 1 0
        = (InputData.mk [] [] [] [1, 1] [0, 0] []).py.getD 0 0
          + CONFIG.dt * ∑ j ∈ Finset.range 1,
              (InputData.mk [] [] [] [1, 1] [0, 0] []).vy.getD j 0) :=
  ⟨by norm_num,
   velocity_mode_integrates_position (InputData.mk [] [] [] [1, 1] [0, 0] []) 1
     (by norm_num)⟩

/-- C2: deriving in velocity mode and re-deriving the resulting
`px, py` in position mode reproduces the driving `vx[i], vy[i]` exactly
at every interior index `i < N - 1`, for driving buffers of equal
length `N ≥ 2`. -/
theorem roundtrip_velocity_position (d : InputData)
    (hlen : d.vy.length = d.vx.length) (hN : 2 ≤ d.vx.length)
    (i : ℕ) (hi : i < d.vx.length - 1) :
    (getCompleteTrajectoryData
        (getCompleteTrajectoryData d Methods.velocity)
        Methods.position).vx.getD i 0 = d.vx.getD i 0
    ∧ (getCompleteTrajectoryData
        (getCompleteTrajectoryData d Methods.velocity)
        Methods.position).vy.getD i 0 = d.vy.getD i 0 := by
  have hiN : i < d.vx.length := lt_of_lt_of_le hi (Nat.sub_le _ _)
  have hi1 : i + 1 < d.vx.length := by omega
  constructor
  · show (calculateFromPxPy (calculateFromVxVy d)).vx.getD i 0 = _
    simp only [calculateFromPxPy, calculateFromVxVy]
    rw [getD_map_range (by simpa using hiN)]
    rw [diffQuot, if_pos (by simpa using hi)]
    rw [getD_map_range hi1, getD_map_range hiN]
    rw [show integ (d.px.getD 0 0) (fun j => d.vx.getD j 0) (i + 1)
        = integ (d.px.getD 0 0) (fun j => d.vx.getD j 0) i
          + d.vx.getD i 0 * CONFIG.dt from rfl]
    rw [add_sub_cancel_left, mul_div_cancel_right₀ _ CONFIG_dt_ne_zero]
  · show (calculateFromPxPy (calculateFromVxVy d)).vy.getD i 0 = _
    simp only [calculateFromPxPy, calculateFromVxVy]
    rw [getD_map_range (by simpa using hiN)]
    rw [diffQuot, if_pos (by simpa using hi)]
    rw [getD_map_range hi1, getD_map_range hiN]
    rw [show integ (d.py.getD 0 0) (fun j => d.vy.getD j 0) (i + 1)
        = integ (d.py.getD 0 0) (fun j => d.vy.getD j 0) i
          + d.vy.getD i 0 * CONFIG.dt from rfl]
    rw [add_sub_cancel_left, mul_div_cancel_right₀ _ CONFIG_dt_ne_zero]

/-- Witness for `roundtrip_velocity_position` at `vx = [1, 2], vy = [3, 4]`,
index 0. -/
theorem roundtrip_velocity_position_witness :
    ((InputData.mk [] [] [] [1, 2] [3, 4] []).vy.length
        = (InputData.mk [] [] [] [1, 2] [3, 4] []).vx.length
      ∧ 2 ≤ (InputData.mk [] [] [] [1, 2] [3, 4] []).vx.length
      ∧ 0 < (InputData.mk [] [] [] [1, 2] [3, 4] []).vx.length - 1)
    ∧ ((getCompleteTrajectoryData
          (getCompleteTrajectoryData (InputData.mk [] [] [] [1, 2] [3, 4] [])
            Methods.velocity)
          Methods.position).vx.getD 0 0
        = (InputData.mk [] [] [] [1, 2] [3, 4] []).vx.getD 0 0
      ∧ (getCompleteTrajectoryData
          (getCompleteTrajectoryData (InputData.mk [] [] [] [1, 2] [3, 4] [])
            Methods.velocity)
          Methods.position).vy.getD 0 0
        = (InputData.mk [] [] [] [1, 2] [3, 4] []).vy.getD 0 0) :=
  ⟨⟨rfl, by norm_num, by norm_num⟩,
   roundtrip_velocity_position (InputData.mk [] [] [] [1, 2] [3, 4] []) rfl
     (by norm_num) 0 (by norm_num)⟩

/-- C1 (amended): in the position and velocity calculation modes, every
entry of the derived orientation signal lies in `(-π, π]` (it is either
an `atan2` value or carried forward from an earlier entry whose base
case is `0`).  In integral mode the first entry is the unnormalized
prior `oz[0]` seed and in differential mode `oz` passes through
unchanged, so the invariant does not hold there (see
`oz_range_fails_integral_mode`). -/
theorem oz_range_position_velocity (d : InputData)
    (h1 : d.py.length = d.px.length) (h2 : d.oz.length = d.px.length)
    (h3 : d.vx.length = d.px.length) (h4 : d.vy.length = d.px.length)
    (h5 : d.wz.length = d.px.length)
    (mode : Methods)
    (hm : mode = Methods.position ∨ mode = Methods.velocity)
    (i : ℕ) (hi : i < (getCompleteTrajectoryData d mode).oz.length) :
    (getCompleteTrajectoryData d mode).oz.getD i 0
      ∈ Set.Ioc (-Real.pi) Real.pi := by
  rcases hm with hm | hm <;> subst hm
  · show (calculateFromPxPy d).oz.getD i 0 ∈ _
    have hi' : i < d.px.length := by
      simpa [getCompleteTrajectoryData, calculateFromPxPy] using hi
    simp only [calculateFromPxPy]
    rw [getD_map_range hi']
    exact ozSeq_mem_Ioc _ _ i
  · show (calculateFromVxVy d).oz.getD i 0 ∈ _
    have hi' : i < d.vx.length := by
      simpa [getCompleteTrajectoryData, calculateFromVxVy] using hi
    simp only [calculateFromVxVy]
    rw [getD_map_range hi']
    exact ozSeq_mem_Ioc _ _ i

/-- Witness for `oz_range_position_velocity`: an input state whose six
buffers all have length 1, in position mode, index 0. -/
theorem oz_range_position_velocity_witness :
    ((InputData.mk [0] [0] [0] [0] [0] [0]).py.length
        = (InputData.mk [0] [0] [0] [0] [0] [0]).px.length
      ∧ 0 < (getCompleteTrajectoryData (InputData.mk [0] [0] [0] [0] [0] [0])
          Methods.position).oz.length)
    ∧ (getCompleteTrajectoryData (InputData.mk [0] [0] [0] [0] [0] [0])
        Methods.position).oz.getD 0 0 ∈ Set.Ioc (-Real.pi) Real.pi :=
  ⟨⟨rfl, by simp [getCompleteTrajectoryData, calculateFromPxPy]⟩,
   oz_range_position_velocity (InputData.mk [0] [0] [0] [0] [0] [0])
     rfl rfl rfl rfl rfl Methods.position (Or.inl rfl) 0
     (by simp [getCompleteTrajectoryData, calculateFromPxPy])⟩

/-- C1 counterexample: with the six equal-length buffers
`px = [0], py = [0], oz = [10], vx = [0], vy = [0], wz = [0]` and the
integral calculation mode, the derived `oz[0]` equals the unnormalized
seed `10`, which lies outside `(-π, π]`: the claimed invariant fails for
the integral (and likewise the differential) mode. -/
theorem oz_range_fails_integral_mode :
    (getCompleteTrajectoryData (InputData.mk [0] [0] [10] [0] [0] [0])
        Methods.integral).oz.getD 0 0 ∉ Set.Ioc (-Real.pi) Real.pi := by
  have hval : (getCompleteTrajectoryData (InputData.mk [0] [0] [10] [0] [0] [0])
      Methods.integral).oz.getD 0 0 = 10 := by
    show (calculateFromVxWz (InputData.mk [0] [0] [10] [0] [0] [0])).oz.getD 0 0 = 10
    simp only [calculateFromVxWz]
    rw [getD_map_range (by norm_num)]
    simp [thetaSeq]
  rw [hval]
  intro h
  have h2 := h.2
  have h3 : Real.pi < 3.15 := Real.pi_lt_d2
  linarith

/-- C4 (amended): in position mode, for buffers `px, py` of equal length
`N ≥ 2` and every index `i < N`: `vx[i], vy[i]` are the forward finite
differences except at the final index (backward difference); `oz[i]` is
`atan2 vy[i] vx[i]` when the speed exceeds `0.01` and otherwise the
previous orientation (`0` at index 0); and `wz[i]` is the difference
`oz[i] - oz[i-1]` passed through the angle normalization — which maps
into the closed interval `[-π, π]` and leaves any value already in
`[-π, π]` (including `-π` itself) unchanged — divided by `dt`, with
`wz[0] = 0`.  (The original claim's normalization target `(-π, π]` is
wrong: a difference of exactly `-π` is not adjusted, see
`wz_wrap_boundary_cex`.) -/
theorem position_mode_formulas (d : InputData)
    (hN : 2 ≤ d.px.length) (hlen : d.py.length = d.px.length)
    (i : ℕ) (hi : i < d.px.length) :
    ((calculateFromPxPy d).vx.getD i 0
        = (if i < d.px.length - 1
           then (d.px.getD (i + 1) 0 - d.px.getD i 0) / CONFIG.dt
           else (d.px.getD i 0 - d.px.getD (i - 1) 0) / CONFIG.dt)
      ∧ (calculateFromPxPy d).vy.getD i 0
        = (if i < d.px.length - 1
           then (d.py.getD (i + 1) 0 - d.py.getD i 0) / CONFIG.dt
           else (d.py.getD i 0 - d.py.getD (i - 1) 0) / CONFIG.dt))
    ∧ ((0.01 < Real.sqrt ((calculateFromPxPy d).vx.getD i 0 *
            (calculateFromPxPy d).vx.getD i 0 +
          (calculateFromPxPy d).vy.getD i 0 *
            (calculateFromPxPy d).vy.getD i 0) →
        (calculateFromPxPy d).oz.getD i 0
          = atan2 ((calculateFromPxPy d).vy.getD i 0)
              ((calculateFromPxPy d).vx.getD i 0))
      ∧ (¬ 0.01 < Real.sqrt ((calculateFromPxPy d).vx.getD i 0 *
            (calculateFromPxPy d).vx.getD i 0 +
          (calculateFromPxPy d).vy.getD i 0 *
            (calculateFromPxPy d).vy.getD i 0) →
        (calculateFromPxPy d).oz.getD i 0
          = if i = 0 then 0 else (calculateFromPxPy d).oz.getD (i - 1) 0))
    ∧ ((calculateFromPxPy d).wz.getD i 0
        = (if i = 0 then 0
           else normalizeAngle ((calculateFromPxPy d).oz.getD i 0
             - (calculateFromPxPy d).oz.getD (i - 1) 0) / CONFIG.dt)
      ∧ normalizeAngle ((calculateFromPxPy d).oz.getD i 0
          - (calculateFromPxPy d).oz.getD (i - 1) 0)
        ∈ Set.Icc (-Real.pi) Real.pi)
    ∧ (∀ x : ℝ, -Real.pi ≤ x → x ≤ Real.pi → normalizeAngle x = x) := by
  have hvx : ∀ j, j < d.px.length →
      (calculateFromPxPy d).vx.getD j 0 = diffQuot d.px.length d.px j := by
    intro j hj
    simp only [calculateFromPxPy]
    rw [getD_map_range hj]
  have hvy : ∀ j, j < d.px.length →
      (calculateFromPxPy d).vy.getD j 0 = diffQuot d.px.length d.py j := by
    intro j hj
    simp only [calculateFromPxPy]
    rw [getD_map_range hj]
  have hoz : ∀ j, j < d.px.length →
      (calculateFromPxPy d).oz.getD j 0
        = ozSeq (fun k => diffQuot d.px.length d.px k) (fun k => diffQuot d.px.length d.py k) j := by
    intro j hj
    simp only [calculateFromPxPy]
    rw [getD_map_range hj]
  have hwz : ∀ j, j < d.px.length →
      (calculateFromPxPy d).wz.getD j 0
        = wzSeq (ozSeq (fun k => diffQuot d.px.length d.px k) (fun k => diffQuot d.px.length d.py k))
            j := by
    intro j hj
    simp only [calculateFromPxPy]
    rw [getD_map_range hj]
  refine ⟨⟨?_, ?_⟩, ⟨?_, ?_⟩, ⟨?_, ?_⟩, ?_⟩
  · rw [hvx i hi, diffQuot]
  · rw [hvy i hi, diffQuot]
  · intro h
    rw [hvx i hi, hvy i hi] at h ⊢
    rw [hoz i hi]
    cases i with
    | zero => rw [ozSeq, if_pos h]
    | succ n => rw [ozSeq, if_pos h]
  · intro h
    rw [hvx i hi, hvy i hi] at h
    rw [hoz i hi]
    cases i with
    | zero => rw [ozSeq, if_neg h]; simp
    | succ n =>
      rw [ozSeq, if_neg h]
      have hn : n < d.px.length := lt_of_le_of_lt (Nat.le_succ n) hi
      rw [if_neg (Nat.succ_ne_zero n), Nat.add_sub_cancel]
      exact (hoz n hn).symm
  · rw [hwz i hi, wzSeq]
    cases i with
    | zero => simp
    | succ n =>
      have hn : n < d.px.length := lt_of_le_of_lt (Nat.le_succ n) hi
      rw [if_neg (Nat.succ_ne_zero n), if_neg (Nat.succ_ne_zero n),
        Nat.add_sub_cancel, hoz (n + 1) hi, hoz n hn]
  · exact normalizeAngle_mem _
  · intro x h1 h2
    exact normalizeAngle_eq_self h1 h2

/-- Witness for `position_mode_formulas` at `px = [0, 1], py = [0, 0]`,
index 0. -/
theorem position_mode_formulas_witness :
    (2 ≤ (InputData.mk [0, 1] [0, 0] [] [] [] []).px.length
      ∧ (InputData.mk [0, 1] [0, 0] [] [] [] []).py.length
        = (InputData.mk [0, 1] [0, 0] [] [] [] []).px.length
      ∧ 0 < (InputData.mk [0, 1] [0, 0] [] [] [] []).px.length)
    ∧ ((calculateFromPxPy (InputData.mk [0, 1] [0, 0] [] [] [] [])).wz.getD 0 0
        = (if (0 : ℕ) = 0 then 0
           else normalizeAngle
             ((calculateFromPxPy (InputData.mk [0, 1] [0, 0] [] [] [] [])).oz.getD 0 0
               - (calculateFromPxPy
                   (InputData.mk [0, 1] [0, 0] [] [] [] [])).oz.getD (0 - 1) 0)
             / CONFIG.dt)) :=
  ⟨⟨by norm_num, rfl, by norm_num⟩,
   ((position_mode_formulas (InputData.mk [0, 1] [0, 0] [] [] [] [])
      (by norm_num) rfl 0 (by norm_num)).2.2.1).1⟩

/-- C4 counterexample: with `px = [0, 0, 0]` and `py = [0, 1, 0]` the
consecutive headings are `π/2` and `-π/2`, so the orientation difference
is exactly `-π`.  The source's normalization loops leave `-π` unchanged
(the claimed wrap target `(-π, π]` would demand `+π`): the derived
`wz[1]` is `-π/dt = -(10π)` and `wz[1]·dt = -π` lies outside `(-π, π]`. -/
theorem wz_wrap_boundary_cex :
    (calculateFromPxPy (InputData.mk [0, 0, 0] [0, 1, 0] [] [] [] [])).wz.getD 1 0
        = -(10 * Real.pi)
    ∧ (calculateFromPxPy (InputData.mk [0, 0, 0] [0, 1, 0] [] [] [] [])).wz.getD 1 0
        * CONFIG.dt ∉ Set.Ioc (-Real.pi) Real.pi := by
  have hpi := Real.pi_pos
  have hv0 : diffQuot ([0, 0, 0] : List ℝ).length ([0, 0, 0] : List ℝ) 0 = 0 := by
    norm_num [diffQuot, List.getD_cons_zero, List.getD_cons_succ]
  have hv1 : diffQuot ([0, 0, 0] : List ℝ).length ([0, 0, 0] : List ℝ) 1 = 0 := by
    norm_num [diffQuot, List.getD_cons_zero, List.getD_cons_succ]
  have hw0 : diffQuot ([0, 0, 0] : List ℝ).length ([0, 1, 0] : List ℝ) 0 = 10 := by
    norm_num [diffQuot, List.getD_cons_zero, List.getD_cons_succ, CONFIG]
  have hw1 : diffQuot ([0, 0, 0] : List ℝ).length ([0, 1, 0] : List ℝ) 1 = -10 := by
    norm_num [diffQuot, List.getD_cons_zero, List.getD_cons_succ, CONFIG]
  have hsq : Real.sqrt ((0 : ℝ) * 0 + 10 * 10) = 10 := by
    rw [show ((0 : ℝ) * 0 + 10 * 10) = 10 ^ 2 by norm_num,
      Real.sqrt_sq (by norm_num)]
  have hsq2 : Real.sqrt ((0 : ℝ) * 0 + -10 * -10) = 10 := by
    rw [show ((0 : ℝ) * 0 + -10 * -10) = 10 ^ 2 by norm_num,
      Real.sqrt_sq (by norm_num)]
  have hoz0 : ozSeq (fun k => diffQuot ([0, 0, 0] : List ℝ).length ([0, 0, 0] : List ℝ) k)
      (fun k => diffQuot ([0, 0, 0] : List ℝ).length ([0, 1, 0] : List ℝ) k) 0 = Real.pi / 2 := by
    rw [ozSeq]
    simp only [hv0, hw0, hsq]
    rw [if_pos (by norm_num : (10 : ℝ) > 0.01)]
    exact Complex.arg_eq_pi_div_two_iff.mpr ⟨rfl, by norm_num⟩
  have hoz1 : ozSeq (fun k => diffQuot ([0, 0, 0] : List ℝ).length ([0, 0, 0] : List ℝ) k)
      (fun k => diffQuot ([0, 0, 0] : List ℝ).length ([0, 1, 0] : List ℝ) k) 1 = -(Real.pi / 2) := by
    rw [ozSeq]
    simp only [hv1, hw1, hsq2]
    rw [if_pos (by norm_num : (10 : ℝ) > 0.01)]
    exact Complex.arg_eq_neg_pi_div_two_iff.mpr ⟨rfl, by norm_num⟩
  have hval : (calculateFromPxPy
      (InputData.mk [0, 0, 0] [0, 1, 0] [] [] [] [])).wz.getD 1 0
        = -(10 * Real.pi) := by
    simp only [calculateFromPxPy]
    rw [getD_map_range (by norm_num)]
    rw [wzSeq, if_neg (by norm_num)]
    simp only [hoz1, hoz0]
    rw [show -(Real.pi / 2) - Real.pi / 2 = -Real.pi by ring]
    rw [normalizeAngle_eq_self (le_refl _) (by linarith)]
    rw [show CONFIG.dt = (0.1 : ℝ) from rfl, div_eq_mul_inv]
    norm_num
    ring
  refine ⟨hval, ?_⟩
  rw [hval, show CONFIG.dt = (0.1 : ℝ) from rfl]
  rw [show -(10 * Real.pi) * (0.1 : ℝ) = -Real.pi by ring]
  intro h
  exact absurd h.1 (lt_irrefl _)

theorem getSig_syncInput (active : List InputKey) (inp comp : InputData)
    (k : InputKey) :
    getSig (syncInput active inp comp) k
      = if k ∈ active then getSig inp k else getSig comp k := by
  cases k <;> rfl

/-- C5: after a batch (or point) update to a signal the active mode
designates as driving, followed by the synchronization step, both
driving-signal buffers hold exactly the post-write values (the engine
never overwrites them) and each of the other four input signals equals
the value derived from the written state. -/
theorem driving_signals_preserved_on_edit (s : TrajState) (k : InputKey)
    (us : List (ℕ × ℝ)) (hk : k ∈ METHODS_inputs s.mode) :
    (∀ k', k' ∈ METHODS_inputs s.mode →
      getSig (batchUpdateTimeSeries s (DataKey.input k) us).input k'
        = getSig (setSig s.input k (applyUpdates (getSig s.input k) us)) k')
    ∧ (∀ k', k' ∉ METHODS_inputs s.mode →
      getSig (batchUpdateTimeSeries s (DataKey.input k) us).input k'
        = getSig (getCompleteTrajectoryData
            (setSig s.input k (applyUpdates (getSig s.input k) us))
            s.mode) k') := by
  constructor
  · intro k' hk'
    show getSig (syncOutputData _).input k' = _
    simp only [syncOutputData]
    rw [getSig_syncInput, if_pos hk']
  · intro k' hk'
    show getSig (syncOutputData _).input k' = _
    simp only [syncOutputData]
    rw [getSig_syncInput, if_neg hk']

/-- Witness for `driving_signals_preserved_on_edit`: position mode,
editing `px`. -/
theorem driving_signals_preserved_on_edit_witness :
    (InputKey.px ∈ METHODS_inputs
      (TrajState.mk (InputData.mk [0] [0] [0] [0] [0] [0])
        (OutputData.mk [0] [0] [0] [0]) (InputData.mk [] [] [] [] [] [])
        Methods.position).mode)
    ∧ ((∀ k', k' ∈ METHODS_inputs
          (TrajState.mk (InputData.mk [0] [0] [0] [0] [0] [0])
            (OutputData.mk [0] [0] [0] [0]) (InputData.mk [] [] [] [] [] [])
            Methods.position).mode →
        getSig (batchUpdateTimeSeries
            (TrajState.mk (InputData.mk [0] [0] [0] [0] [0] [0])
              (OutputData.mk [0] [0] [0] [0]) (InputData.mk [] [] [] [] [] [])
              Methods.position)
            (DataKey.input InputKey.px) [(0, 5)]).input k'
          = getSig (setSig
              (TrajState.mk (InputData.mk [0] [0] [0] [0] [0] [0])
                (OutputData.mk [0] [0] [0] [0]) (InputData.mk [] [] [] [] [] [])
                Methods.position).input InputKey.px
              (applyUpdates (getSig
                (TrajState.mk (InputData.mk [0] [0] [0] [0] [0] [0])
                  (OutputData.mk [0] [0] [0] [0]) (InputData.mk [] [] [] [] [] [])
                  Methods.position).input InputKey.px) [(0, 5)])) k')
      ∧ (∀ k', k' ∉ METHODS_inputs
          (TrajState.mk (InputData.mk [0] [0] [0] [0] [0] [0])
            (OutputData.mk [0] [0] [0] [0]) (InputData.mk [] [] [] [] [] [])
            Methods.position).mode →
        getSig (batchUpdateTimeSeries
            (TrajState.mk (InputData.mk [0] [0] [0] [0] [0] [0])
              (OutputData.mk [0] [0] [0] [0]) (InputData.mk [] [] [] [] [] [])
              Methods.position)
            (DataKey.input InputKey.px) [(0, 5)]).input k'
          = getSig (getCompleteTrajectoryData
              (setSig
                (TrajState.mk (InputData.mk [0] [0] [0] [0] [0] [0])
                  (OutputData.mk [0] [0] [0] [0]) (InputData.mk [] [] [] [] [] [])
                  Methods.position).input InputKey.px
                (applyUpdates (getSig
                  (TrajState.mk (InputData.mk [0] [0] [0] [0] [0] [0])
                    (OutputData.mk [0] [0] [0] [0]) (InputData.mk [] [] [] [] [] [])
                    Methods.position).input InputKey.px) [(0, 5)]))
              (TrajState.mk (InputData.mk [0] [0] [0] [0] [0] [0])
                (OutputData.mk [0] [0] [0] [0]) (InputData.mk [] [] [] [] [] [])
                Methods.position).mode) k')) :=
  ⟨by decide,
   driving_signals_preserved_on_edit
     (TrajState.mk (InputData.mk [0] [0] [0] [0] [0] [0])
       (OutputData.mk [0] [0] [0] [0]) (InputData.mk [] [] [] [] [] [])
       Methods.position)
     InputKey.px [(0, 5)] (by decide)⟩

/-- C6: a batch update addressed at one of the four derived/output
signals only rewrites that output buffer: the resulting state is the
pure output-field update — no re-derivation and no synchronization step
runs (the input signals, the ground truth and the mode are untouched) —
while a batch update addressed at an input signal is exactly the write
followed by the synchronization step. -/
theorem output_write_never_syncs (s : TrajState) (k : OutputKey)
    (ik : InputKey) (us : List (ℕ × ℝ)) :
    (batchUpdateTimeSeries s (DataKey.output k) us
      = { s with
          output := setOut s.output k (applyUpdates (getOut s.output k) us) })
    ∧ (batchUpdateTimeSeries s (DataKey.output k) us).input = s.input
    ∧ (batchUpdateTimeSeries s (DataKey.output k) us).gt = s.gt
    ∧ (batchUpdateTimeSeries s (DataKey.output k) us).mode = s.mode
    ∧ (batchUpdateTimeSeries s (DataKey.input ik) us
      = syncOutputData
          { s with
            input := setSig s.input ik (applyUpdates (getSig s.input ik) us) }) :=
  ⟨rfl, rfl, rfl, rfl, rfl⟩

/-- C8: the tracking-error output `l1` of the metrics engine is all
zeros when no ground truth is supplied and when the ground truth equals
the state; when a ground truth is supplied, `l1[i]` is the Euclidean
distance `sqrt((px[i]-gtPx[i])^2 + (py[i]-gtPy[i])^2)` at every index
below the ground truth's `px` length and `0` at every index at or
beyond it. -/
theorem l1_tracking_error (d gt : InputData) :
    (∀ i, (calculateOutputData d none).l1.getD i 0 = 0)
    ∧ (∀ i, (calculateOutputData d (some d)).l1.getD i 0 = 0)
    ∧ (∀ i, i < d.px.length →
        ((i < gt.px.length →
          (calculateOutputData d (some gt)).l1.getD i 0
            = Real.sqrt ((d.px.getD i 0 - gt.px.getD i 0) ^ 2
                + (d.py.getD i 0 - gt.py.getD i 0) ^ 2))
        ∧ (gt.px.length ≤ i →
          (calculateOutputData d (some gt)).l1.getD i 0 = 0))) := by
  refine ⟨?_, ?_, ?_⟩
  · intro i
    by_cases hi : i < d.px.length
    · simp only [calculateOutputData]
      rw [getD_map_range hi]
    · refine getD_default ?_
      simp only [calculateOutputData, length_map_range]
      omega
  · intro i
    by_cases hi : i < d.px.length
    · simp only [calculateOutputData]
      rw [getD_map_range hi]
      simp
    · refine getD_default ?_
      simp only [calculateOutputData, length_map_range]
      omega
  · intro i hi
    constructor
    · intro hgt
      simp only [calculateOutputData]
      rw [getD_map_range hi]
      rw [if_pos hgt, ← pow_two, ← pow_two]
    · intro hgt
      simp only [calculateOutputData]
      rw [getD_map_range hi]
      simp [Nat.not_lt.mpr hgt]

/-- Witness for `l1_tracking_error` at state `px = [4], py = [8]` and
ground truth `px = [1], py = [2]`, index 0. -/
theorem l1_tracking_error_witness :
    ((0 : ℕ) < (InputData.mk [4] [8] [0] [0] [0] [0]).px.length
      ∧ (0 : ℕ) < (InputData.mk [1] [2] [0] [0] [0] [0]).px.length)
    ∧ (calculateOutputData (InputData.mk [4] [8] [0] [0] [0] [0])
        (some (InputData.mk [1] [2] [0] [0] [0] [0]))).l1.getD 0 0
      = Real.sqrt
          (((InputData.mk [4] [8] [0] [0] [0] [0]).px.getD 0 0
              - (InputData.mk [1] [2] [0] [0] [0] [0]).px.getD 0 0) ^ 2
            + ((InputData.mk [4] [8] [0] [0] [0] [0]).py.getD 0 0
              - (InputData.mk [1] [2] [0] [0] [0] [0]).py.getD 0 0) ^ 2) :=
  ⟨⟨by norm_num, by norm_num⟩,
   ((l1_tracking_error (InputData.mk [4] [8] [0] [0] [0] [0])
        (InputData.mk [1] [2] [0] [0] [0] [0])).2.2 0
      (by norm_num)).1 (by norm_num)⟩

/-- C9 (implicit noninterference): the metrics engine reads the ground
truth only through its `px` and `py` buffers — two ground truths that
agree on `px` and `py` produce identical `ax, ay, cz, l1` outputs
whatever their `oz, vx, vy, wz` buffers hold. -/
theorem metrics_ignore_gt_other_signals (d g g' : InputData)
    (hpx : g'.px = g.px) (hpy : g'.py = g.py) :
    calculateOutputData d (some g) = calculateOutputData d (some g') := by
  simp only [calculateOutputData]
  rw [hpx, hpy]

/-- Witness for `metrics_ignore_gt_other_signals`: two ground truths
sharing `px, py` but with different `oz, vx, vy, wz`. -/
theorem metrics_ignore_gt_other_signals_witness :
    ((InputData.mk [1] [2] [9] [8] [7] [6]).px
        = (InputData.mk [1] [2] [3] [4] [5] [0]).px
      ∧ (InputData.mk [1] [2] [9] [8] [7] [6]).py
        = (InputData.mk [1] [2] [3] [4] [5] [0]).py)
    ∧ calculateOutputData (InputData.mk [0] [0] [0] [0] [0] [0])
        (some (InputData.mk [1] [2] [3] [4] [5] [0]))
      = calculateOutputData (InputData.mk [0] [0] [0] [0] [0] [0])
        (some (InputData.mk [1] [2] [9] [8] [7] [6])) :=
  ⟨⟨rfl, rfl⟩,
   metrics_ignore_gt_other_signals (InputData.mk [0] [0] [0] [0] [0] [0])
     (InputData.mk [1] [2] [3] [4] [5] [0])
     (InputData.mk [1] [2] [9] [8] [7] [6]) rfl rfl⟩

/-- C10 (implicit totality): every derivation mode is total — the four
arrays it derives always have exactly the length of the mode's primary
driving signal (`px` for position/differential, `vx` for
velocity/integral), whatever the lengths of the other buffers; the
integration seeds are read as `getD 0 0`, i.e. the prior first entry
when present and `0` when the buffer is empty (last conjunct), so a
missing seed is silently replaced by `0`. -/
theorem derivation_total_lengths_and_seeds (d : InputData) :
    ((calculateFromPxPy d).vx.length = d.px.length
      ∧ (calculateFromPxPy d).vy.length = d.px.length
      ∧ (calculateFromPxPy d).oz.length = d.px.length
      ∧ (calculateFromPxPy d).wz.length = d.px.length)
    ∧ ((calculateFromVxVy d).px.length = d.vx.length
      ∧ (calculateFromVxVy d).py.length = d.vx.length
      ∧ (calculateFromVxVy d).oz.length = d.vx.length
      ∧ (calculateFromVxVy d).wz.length = d.vx.length)
    ∧ ((calculateFromVxWz d).px.length = d.vx.length
      ∧ (calculateFromVxWz d).py.length = d.vx.length
      ∧ (calculateFromVxWz d).oz.length = d.vx.length
      ∧ (calculateFromVxWz d).vy.length = d.vx.length)
    ∧ ((calculateFromPxOz d).py.length = d.px.length
      ∧ (calculateFromPxOz d).vx.length = d.px.length
      ∧ (calculateFromPxOz d).vy.length = d.px.length
      ∧ (calculateFromPxOz d).wz.length = d.px.length)
    ∧ (0 < d.vx.length →
        ((calculateFromVxVy d).px.getD 0 0 = d.px.getD 0 0
        ∧ (calculateFromVxVy d).py.getD 0 0 = d.py.getD 0 0
        ∧ (calculateFromVxWz d).px.getD 0 0 = d.px.getD 0 0
        ∧ (calculateFromVxWz d).py.getD 0 0 = d.py.getD 0 0
        ∧ (calculateFromVxWz d).oz.getD 0 0 = d.oz.getD 0 0))
    ∧ (0 < d.px.length →
        (calculateFromPxOz d).py.getD 0 0 = d.py.getD 0 0)
    ∧ (([] : List ℝ).getD 0 0 = 0) := by
  refine ⟨⟨?_, ?_, ?_, ?_⟩, ⟨?_, ?_, ?_, ?_⟩, ⟨?_, ?_, ?_, ?_⟩,
    ⟨?_, ?_, ?_, ?_⟩, ?_, ?_, rfl⟩
  · simp [calculateFromPxPy]
  · simp [calculateFromPxPy]
  · simp [calculateFromPxPy]
  · simp [calculateFromPxPy]
  · simp [calculateFromVxVy]
  · simp [calculateFromVxVy]
  · simp [calculateFromVxVy]
  · simp [calculateFromVxVy]
  · simp [calculateFromVxWz]
  · simp [calculateFromVxWz]
  · simp [calculateFromVxWz]
  · simp [calculateFromVxWz]
  · simp [calculateFromPxOz]
  · simp [calculateFromPxOz]
  · simp [calculateFromPxOz]
  · simp [calculateFromPxOz]
  · intro h0
    refine ⟨?_, ?_, ?_, ?_, ?_⟩ <;>
      simp only [calculateFromVxVy, calculateFromVxWz] <;>
      rw [getD_map_range h0] <;> rfl
  · intro h0
    simp only [calculateFromPxOz]
    rw [getD_map_range h0]
    rfl

/-- Witness for `derivation_total_lengths_and_seeds`: velocity mode with
`vx = [2]` and an empty `px` buffer — the integrated `px[0]` is the
missing seed, `0`. -/
theorem derivation_total_lengths_and_seeds_witness :
    (0 < (InputData.mk [] [] [] [2] [] []).vx.length)
    ∧ (calculateFromVxVy (InputData.mk [] [] [] [2] [] [])).px.getD 0 0
      = (InputData.mk [] [] [] [2] [] []).px.getD 0 0 :=
  ⟨by norm_num,
   ((derivation_total_lengths_and_seeds
      (InputData.mk [] [] [] [2] [] [])).2.2.2.2.1 (by norm_num)).1⟩

/-- C7 (amended): a document with none of the six recognized arrays is
rejected with no state mutation; for an accepted document, each of the
six signals is first written with the length-normalized present array
(absent arrays keep the current buffer) — `writeDoc`/`processDoc` below —
and the subsequent synchronization step then leaves the two driving
signals at exactly those written values while the four non-driving
signals are replaced by values re-derived from the written state (so an
absent non-driving array does not, in general, keep its old value — see
`import_overwrites_nondriving_cex`); normalization pads or truncates
every present array to exactly `CONFIG.timeSteps` entries. -/
theorem import_rules (s : TrajState) (doc : ImportDoc) :
    (validateImportData doc = false → importFlow s doc = s)
    ∧ (validateImportData doc = true →
        (∀ k, k ∈ METHODS_inputs s.mode →
          getSig (importFlow s doc).input k
            = getSig (writeDoc s.input (processDoc doc)) k)
        ∧ (∀ k, k ∉ METHODS_inputs s.mode →
          getSig (importFlow s doc).input k
            = getSig (getCompleteTrajectoryData
                (writeDoc s.input (processDoc doc)) s.mode) k))
    ∧ (∀ a : List ℝ,
        (padOrTruncate a CONFIG.timeSteps).length = CONFIG.timeSteps) := by
  refine ⟨?_, ?_, ?_⟩
  · intro h
    simp [importFlow, h]
  · intro h
    have hflow : importFlow s doc
        = syncOutputData { s with input := writeDoc s.input (processDoc doc) } := by
      simp [importFlow, h, importTrajectory]
    constructor
    · intro k hk
      rw [hflow]
      simp only [syncOutputData]
      rw [getSig_syncInput, if_pos hk]
    · intro k hk
      rw [hflow]
      simp only [syncOutputData]
      rw [getSig_syncInput, if_neg hk]
  · intro a
    rw [padOrTruncate]
    split
    · omega
    · split
      · rw [List.length_take]
        omega
      · rw [List.length_append, List.length_replicate]
        omega

/-- Witness for `import_rules`: position mode, a document carrying only
`px`. -/
theorem import_rules_witness :
    (validateImportData (ImportDoc.mk (some []) none none none none none) = true
      ∧ InputKey.px ∈ METHODS_inputs
          (TrajState.mk (InputData.mk [] [] [] [] [] [])
            (OutputData.mk [] [] [] []) (InputData.mk [] [] [] [] [] [])
            Methods.position).mode)
    ∧ getSig (importFlow
          (TrajState.mk (InputData.mk [] [] [] [] [] [])
            (OutputData.mk [] [] [] []) (InputData.mk [] [] [] [] [] [])
            Methods.position)
          (ImportDoc.mk (some []) none none none none none)).input InputKey.px
      = getSig (writeDoc
          (TrajState.mk (InputData.mk [] [] [] [] [] [])
            (OutputData.mk [] [] [] []) (InputData.mk [] [] [] [] [] [])
            Methods.position).input
          (processDoc (ImportDoc.mk (some []) none none none none none)))
          InputKey.px :=
  ⟨⟨rfl, by decide⟩,
   ((import_rules
      (TrajState.mk (InputData.mk [] [] [] [] [] [])
        (OutputData.mk [] [] [] []) (InputData.mk [] [] [] [] [] [])
        Methods.position)
      (ImportDoc.mk (some []) none none none none none)).2.1 rfl).1
     InputKey.px (by decide)⟩

/-- C7 counterexample: position mode, current `vx` all ones, and an
accepted document containing only `px` (all zeros, already of length
`timeSteps`): `vx` is absent from the document, yet after the import
operation the `vx` buffer has been overwritten by the value re-derived
from `px` (all zeros) — an absent array does not leave the
corresponding signal unchanged. -/
theorem import_overwrites_nondriving_cex :
    (importFlow
        (TrajState.mk
          (InputData.mk (List.replicate 33 0) (List.replicate 33 0)
            (List.replicate 33 0) (List.replicate 33 1)
            (List.replicate 33 0) (List.replicate 33 0))
          (OutputData.mk (List.replicate 33 0) (List.replicate 33 0)
            (List.replicate 33 0) (List.replicate 33 0))
          (InputData.mk [] [] [] [] [] []) Methods.position)
        (ImportDoc.mk (some (List.replicate 33 0)) none none none none
          none)).input.vx
      ≠ (TrajState.mk
          (InputData.mk (List.replicate 33 0) (List.replicate 33 0)
            (List.replicate 33 0) (List.replicate 33 1)
            (List.replicate 33 0) (List.replicate 33 0))
          (OutputData.mk (List.replicate 33 0) (List.replicate 33 0)
            (List.replicate 33 0) (List.replicate 33 0))
          (InputData.mk [] [] [] [] [] []) Methods.position).input.vx := by
  have hlhs : (importFlow
      (TrajState.mk
        (InputData.mk (List.replicate 33 0) (List.replicate 33 0)
          (List.replicate 33 0) (List.replicate 33 1)
          (List.replicate 33 0) (List.replicate 33 0))
        (OutputData.mk (List.replicate 33 0) (List.replicate 33 0)
          (List.replicate 33 0) (List.replicate 33 0))
        (InputData.mk [] [] [] [] [] []) Methods.position)
      (ImportDoc.mk (some (List.replicate 33 0)) none none none none
        none)).input.vx.getD 0 0 = 0 := by
    have hval : validateImportData
        (ImportDoc.mk (some (List.replicate 33 0)) none none none none
          none) = true := rfl
    have hpad : padOrTruncate (List.replicate 33 (0 : ℝ)) CONFIG.timeSteps
        = List.replicate 33 0 := by
      rw [padOrTruncate, if_pos]
      rw [List.length_replicate]
      rfl
    simp only [importFlow, hval, if_true, importTrajectory, syncOutputData,
      syncInput, writeDoc, processDoc, hpad, Option.map_some',
      Option.getD_some, Option.map_none', Option.getD_none]
    rw [if_neg (by decide : ¬ InputKey.vx ∈ METHODS_inputs
      (Methods.position))]
    show (calculateFromPxPy _).vx.getD 0 0 = 0
    simp only [calculateFromPxPy]
    rw [getD_map_range (by rw [List.length_replicate]; norm_num)]
    rw [diffQuot, if_pos (by rw [List.length_replicate]; norm_num)]
    rw [getD_replicate0, getD_replicate0]
    norm_num
  intro h
  have h0 := congrArg (fun l => l.getD 0 0) h
  simp only at h0
  rw [hlhs] at h0
  have hone : (List.replicate 33 (1 : ℝ)).getD 0 0 = 1 := rfl
  rw [hone] at h0
  norm_num at h0
